import Mathlib

set_option maxRecDepth 10000

/-!
Shallow embedding of the `apechan-solana` message-board program
(`src/lib.rs`) and proofs about its instruction decoding, authorization,
provisioning and record serialization.

Bytes are modelled as `Nat` (values < 256 on well-formed data), byte
buffers as `List Nat`, and a Solana `Pubkey` as its 32-byte buffer.
External collaborators (the spl-token holding program's account decode,
the rent calculator, and the `create_account` system-program invocation)
are modelled at their interface boundary, as the spec scopes them.
-/

/-- A Solana public key: a 32-byte identifier, modelled as its byte list. -/
abbrev Pubkey := List Nat

/-- The subset of `solana_program::program_error::ProgramError` values this
program can produce or propagate.  `Custom n` stands for any other error an
external primitive may return. -/
inductive ProgramError where
  | InvalidInstructionData
  | NotEnoughAccountKeys
  | MissingRequiredSignature
  | IncorrectProgramId
  | InvalidAccountData
  | UninitializedAccount
  | BorshIoError
  | Custom (n : Nat)
deriving DecidableEq, Repr

/-- Is `c` a UTF-8 continuation byte (`0x80..0xBF`)? -/
def isCont (c : Nat) : Bool := decide (0x80 ≤ c ∧ c ≤ 0xBF)

/-- UTF-8 validity of a byte sequence, exactly the check performed by Rust's
`String::from_utf8`: ASCII, the two- to four-byte lead ranges with their
restricted first continuation bytes (rejecting overlong forms, surrogates
and code points above `U+10FFFF`). -/
def utf8Valid : List Nat → Bool
  | [] => true
  | b :: rest =>
    if b ≤ 0x7F then utf8Valid rest
    else if 0xC2 ≤ b ∧ b ≤ 0xDF then
      match rest with
      | c1 :: rest1 => isCont c1 && utf8Valid rest1
      | [] => false
    else if b = 0xE0 then
      match rest with
      | c1 :: c2 :: rest2 => decide (0xA0 ≤ c1 ∧ c1 ≤ 0xBF) && isCont c2 && utf8Valid rest2
      | _ => false
    else if (0xE1 ≤ b ∧ b ≤ 0xEC) ∨ b = 0xEE ∨ b = 0xEF then
      match rest with
      | c1 :: c2 :: rest2 => isCont c1 && isCont c2 && utf8Valid rest2
      | _ => false
    else if b = 0xED then
      match rest with
      | c1 :: c2 :: rest2 => decide (0x80 ≤ c1 ∧ c1 ≤ 0x9F) && isCont c2 && utf8Valid rest2
      | _ => false
    else if b = 0xF0 then
      match rest with
      | c1 :: c2 :: c3 :: rest3 =>
          decide (0x90 ≤ c1 ∧ c1 ≤ 0xBF) && isCont c2 && isCont c3 && utf8Valid rest3
      | _ => false
    else if 0xF1 ≤ b ∧ b ≤ 0xF3 then
      match rest with
      | c1 :: c2 :: c3 :: rest3 => isCont c1 && isCont c2 && isCont c3 && utf8Valid rest3
      | _ => false
    else if b = 0xF4 then
      match rest with
      | c1 :: c2 :: c3 :: rest3 =>
          decide (0x80 ≤ c1 ∧ c1 ≤ 0x8F) && isCont c2 && isCont c3 && utf8Valid rest3
      | _ => false
    else false

/-- The program's instruction enum.  A Rust `String` is modelled as its
UTF-8 byte buffer. -/
inductive MessageBoardInstruction where
  | createBoard (token : Pubkey) (url : List Nat)
deriving DecidableEq, Repr

/-- Outcome of `MessageBoardInstruction::unpack`.  Besides returning
`Ok`/`Err` the source can abort: `Pubkey::new(&rest[..32])` indexes the
remainder without a bounds check, so a tag-0 payload with fewer than 32
bytes after the tag panics; `panicked` records that outcome. -/
inductive UnpackResult where
  | ok (i : MessageBoardInstruction)
  | err (e : ProgramError)
  | panicked
deriving DecidableEq, Repr

/-- `MessageBoardInstruction::unpack` from `src/lib.rs`: empty input is
`InvalidInstructionData`; tag 0 slices the next 32 bytes as the token
(panicking when fewer than 32 remain) and converts the rest to UTF-8
(`InvalidInstructionData` when invalid); any other tag is
`InvalidInstructionData`. -/
def MessageBoardInstruction.unpack (input : List Nat) : UnpackResult :=
  match input with
  | [] => .err .InvalidInstructionData
  | variant :: rest =>
    if variant = 0 then
      if rest.length < 32 then .panicked
      else if utf8Valid (rest.drop 32) then
        .ok (.createBoard (rest.take 32) (rest.drop 32))
      else .err .InvalidInstructionData
    else .err .InvalidInstructionData

/-- Little-endian interpretation of a byte list as a natural number. -/
def leBytesToNat (l : List Nat) : Nat := l.foldr (fun b acc => b + 256 * acc) 0

/-- The 4 little-endian bytes of `n` (a Rust `u32`). -/
def natToLe4 (n : Nat) : List Nat :=
  [n % 256, n / 256 % 256, n / 65536 % 256, n / 16777216 % 256]

/-- The 8 little-endian bytes of `n` (a Rust `u64`). -/
def natToLe8 (n : Nat) : List Nat :=
  natToLe4 (n % 4294967296) ++ natToLe4 (n / 4294967296)

/-- The fields of an spl-token holding account that this program reads:
`owner`, `mint` and `amount`. -/
structure TokenHolding where
  mint : Pubkey
  owner : Pubkey
  amount : Nat
deriving DecidableEq, Repr

/-- Model of the external spl-token `Account::unpack` at its interface
boundary: the fixed 165-byte layout `mint (0..32), owner (32..64),
amount (64..72 LE), delegate COption tag (72..76), state (108),
is_native COption tag (109..113), close_authority COption tag (129..133)`.
Wrong length, a COption tag other than 0/1 or a state above 2 fail with
`InvalidAccountData`; state 0 (uninitialized) fails with
`UninitializedAccount`. -/
def unpackTokenAccount (data : List Nat) : Except ProgramError TokenHolding :=
  if data.length = 165 then
    let delegateTag := (data.drop 72).take 4
    let isNativeTag := (data.drop 109).take 4
    let closeTag := (data.drop 129).take 4
    let state := data.getD 108 0
    if (delegateTag = [0, 0, 0, 0] ∨ delegateTag = [1, 0, 0, 0]) ∧ state ≤ 2 ∧
        (isNativeTag = [0, 0, 0, 0] ∨ isNativeTag = [1, 0, 0, 0]) ∧
        (closeTag = [0, 0, 0, 0] ∨ closeTag = [1, 0, 0, 0]) then
      if state = 0 then .error .UninitializedAccount
      else .ok ⟨data.take 32, (data.drop 32).take 32, leBytesToNat ((data.drop 64).take 8)⟩
    else .error .InvalidAccountData
  else .error .InvalidAccountData

/-- A well-formed 165-byte spl-token holding account buffer for the given
mint, owner and amount (no delegate, state = initialized, not native,
no close authority). -/
def mkHoldingData (mint owner : Pubkey) (amount : Nat) : List Nat :=
  mint ++ owner ++ natToLe8 amount ++ ([0, 0, 0, 0] ++ List.replicate 32 0) ++
    [1] ++ ([0, 0, 0, 0] ++ List.replicate 8 0) ++ List.replicate 8 0 ++
    ([0, 0, 0, 0] ++ List.replicate 32 0)

/-- The slice of a Solana `AccountInfo` that `create_board` reads:
its key, signer flag, owning program, data buffer and balance. -/
structure AccountInfo where
  key : Pubkey
  is_signer : Bool
  owner : Pubkey
  data : List Nat
  lamports : Nat
deriving DecidableEq, Repr

/-- `solana_program::account_info::next_account_info` on a list: the next
account and the remainder, or `NotEnoughAccountKeys` when exhausted. -/
def next_account_info (accounts : List AccountInfo) :
    Except ProgramError (AccountInfo × List AccountInfo) :=
  match accounts with
  | [] => .error .NotEnoughAccountKeys
  | a :: rest => .ok (a, rest)

/-- The argument tuple of one `system_instruction::create_account`
cross-program invocation. -/
structure CpiCall where
  payer : Pubkey
  new_account : Pubkey
  lamports : Nat
  space : Nat
  owner_program : Pubkey
deriving DecidableEq, Repr

/-- The external collaborators `create_board` calls, modelled at their
interface boundary as the spec scopes them: the rent calculator's
`minimum_balance` (a pure function of the size) and the account-creation
primitive's verdict on a given invocation. -/
structure HostEnv where
  minimumBalance : Nat → Nat
  createAccount : CpiCall → Except ProgramError Unit

/-- Terminal outcome of one `create_board`/`process_instruction` run:
success carries the one `create_account` invocation made and the final
board-storage bytes; failure carries the invocations made before the
error; `panicked` records an abort inside instruction decoding. -/
inductive BoardResult where
  | success (cpi : CpiCall) (finalData : List Nat)
  | failure (cpis : List CpiCall) (e : ProgramError)
  | panicked
deriving DecidableEq, Repr

/-- The `create_account` invocations recorded in an outcome. -/
def cpisOf : BoardResult → List CpiCall
  | .success c _ => [c]
  | .failure l _ => l
  | .panicked => []

/-- Did the invocation succeed? -/
def succeeded : BoardResult → Bool
  | .success _ _ => true
  | _ => false

/-- The final board-storage bytes of a successful outcome. -/
def finalBoardData : BoardResult → Option (List Nat)
  | .success _ d => some d
  | _ => none

/-- `std::mem::size_of::<MessageBoardInfo>()` on the 64-bit BPF target:
`bool` (1) + two 32-byte `Pubkey`s + `String` (24: pointer, capacity,
length), packed under alignment 8, gives 96.  This is the fixed
compile-time size `create_board` allocates, independent of the url. -/
def messageBoardInfoSize : Nat := 96

/-- The persisted board record.  A Rust `String` is modelled as its UTF-8
byte buffer. -/
structure MessageBoardInfo where
  is_initialized : Bool
  owner : Pubkey
  token : Pubkey
  url : List Nat
deriving DecidableEq, Repr

/-- The Borsh wire form of a `MessageBoardInfo`: bool as one byte, the two
keys verbatim, then the url with a `u32` little-endian length prefix. -/
def serializeBoardRecord (r : MessageBoardInfo) : List Nat :=
  (if r.is_initialized then [1] else [0]) ++ r.owner ++ r.token ++
    natToLe4 r.url.length ++ r.url

/-- One `write_all` of a Borsh field into a buffer of capacity `cap`,
`written` bytes already emitted: appends when the field still fits,
otherwise fails like writing to a full `&mut [u8]` slice
(`BorshIoError`). -/
def pushBytes (cap : Nat) (written bytes : List Nat) :
    Except ProgramError (List Nat) :=
  if written.length + bytes.length ≤ cap then .ok (written ++ bytes)
  else .error .BorshIoError

/-- `board_info.serialize(&mut &mut data[..])`: Borsh writes the four
fields in order into the buffer; the result keeps the buffer's bytes past
the record. -/
def serializeInto (r : MessageBoardInfo) (buf : List Nat) :
    Except ProgramError (List Nat) :=
  match pushBytes buf.length [] (if r.is_initialized then [1] else [0]) with
  | .error e => .error e
  | .ok s1 =>
  match pushBytes buf.length s1 r.owner with
  | .error e => .error e
  | .ok s2 =>
  match pushBytes buf.length s2 r.token with
  | .error e => .error e
  | .ok s3 =>
  match pushBytes buf.length s3 (natToLe4 r.url.length) with
  | .error e => .error e
  | .ok s4 =>
  match pushBytes buf.length s4 r.url with
  | .error e => .error e
  | .ok s5 => .ok (s5 ++ buf.drop s5.length)

/-- Read `n` bytes from the front of a buffer. -/
def readBytes (n : Nat) (buf : List Nat) : Option (List Nat × List Nat) :=
  if n ≤ buf.length then some (buf.take n, buf.drop n) else none

/-- Borsh deserialization of a bool: one byte, `0` or `1`. -/
def boolFromBytes : List Nat → Option Bool
  | [0] => some false
  | [1] => some true
  | _ => none

/-- Borsh deserialization of a `MessageBoardInfo` from the front of a
buffer: a 0/1 bool byte, two 32-byte keys, a `u32` little-endian length,
then that many url bytes which must be valid UTF-8.  Returns the record
and the unread remainder. -/
def deserializeBoardRecord (buf : List Nat) :
    Option (MessageBoardInfo × List Nat) :=
  match readBytes 1 buf with
  | none => none
  | some (bb, r1) =>
  match boolFromBytes bb with
  | none => none
  | some flag =>
  match readBytes 32 r1 with
  | none => none
  | some (owner, r2) =>
  match readBytes 32 r2 with
  | none => none
  | some (token, r3) =>
  match readBytes 4 r3 with
  | none => none
  | some (lenB, r4) =>
  match readBytes (leBytesToNat lenB) r4 with
  | none => none
  | some (url, r5) =>
  if utf8Valid url then some (⟨flag, owner, token, url⟩, r5) else none

/-- `create_board` from `src/lib.rs`: fetch the six accounts in order,
check the signer flag, the holding account's owning program, decode the
holding, check `owner`/`mint`/`amount`, then invoke `create_account` with
the fixed `messageBoardInfoSize` and its rent-exempt minimum, and finally
serialize the record into the freshly provisioned (zeroed) buffer. -/
def create_board (env : HostEnv) (program_id : Pubkey)
    (accounts : List AccountInfo) (token : Pubkey) (url : List Nat) :
    BoardResult :=
  match next_account_info accounts with
  | .error e => .failure [] e
  | .ok (sender, r1) =>
  match next_account_info r1 with
  | .error e => .failure [] e
  | .ok (board_account, r2) =>
  match next_account_info r2 with
  | .error e => .failure [] e
  | .ok (token_account, r3) =>
  match next_account_info r3 with
  | .error e => .failure [] e
  | .ok (token_program, r4) =>
  match next_account_info r4 with
  | .error e => .failure [] e
  | .ok (_system_program, r5) =>
  match next_account_info r5 with
  | .error e => .failure [] e
  | .ok (_rent_sysvar_account, _) =>
  if !sender.is_signer then .failure [] .MissingRequiredSignature
  else if token_account.owner ≠ token_program.key then
    .failure [] .IncorrectProgramId
  else
    match unpackTokenAccount token_account.data with
    | .error e => .failure [] e
    | .ok token_account_data =>
      if token_account_data.owner ≠ sender.key ∨
          token_account_data.mint ≠ token ∨ token_account_data.amount = 0 then
        .failure [] .InvalidAccountData
      else
        let space := messageBoardInfoSize
        let lamports := env.minimumBalance space
        let cpi : CpiCall := ⟨sender.key, board_account.key, lamports, space, program_id⟩
        match env.createAccount cpi with
        | .error e => .failure [cpi] e
        | .ok _ =>
          let board_info : MessageBoardInfo := ⟨true, sender.key, token, url⟩
          match serializeInto board_info (List.replicate space 0) with
          | .error e => .failure [cpi] e
          | .ok d => .success cpi d

/-- `process_instruction` from `src/lib.rs`: unpack the payload and
dispatch `CreateBoard` to `create_board`. -/
def process_instruction (env : HostEnv) (program_id : Pubkey)
    (accounts : List AccountInfo) (instruction_data : List Nat) :
    BoardResult :=
  match MessageBoardInstruction.unpack instruction_data with
  | .panicked => .panicked
  | .err e => .failure [] e
  | .ok (.createBoard token url) => create_board env program_id accounts token url

/-- The AuthorizationValidator contract as the spec words it (section 4.2):
the four checks in their fixed order — signer flag, holding account's
owning program, holding decode, then `owner`/`mint`/`amount` — each
failing fast with its own error.  Written from the spec to be compared
against `create_board`. -/
def authorizeSpec (sender token_account token_program : AccountInfo)
    (token : Pubkey) : Except ProgramError TokenHolding :=
  if !sender.is_signer then .error .MissingRequiredSignature
  else if token_account.owner ≠ token_program.key then .error .IncorrectProgramId
  else
    match unpackTokenAccount token_account.data with
    | .error e => .error e
    | .ok holding =>
      if holding.owner ≠ sender.key ∨ holding.mint ≠ token ∨ holding.amount = 0 then
        .error .InvalidAccountData
      else .ok holding

/-! Concrete fixtures used by witnesses and counterexamples. -/

def senderKey : Pubkey := List.replicate 32 1

def boardKey : Pubkey := List.replicate 32 2

def mintKey : Pubkey := List.replicate 32 7

def holdingProgKey : Pubkey := List.replicate 32 4

def programKey : Pubkey := List.replicate 32 9

def okEnv : HostEnv := ⟨fun _ => 5, fun _ => .ok ()⟩

def errEnv : HostEnv := ⟨fun _ => 5, fun _ => .error (.Custom 7)⟩

def senderAccount : AccountInfo := ⟨senderKey, true, List.replicate 32 0, [], 10⟩

def nonSignerSender : AccountInfo := ⟨senderKey, false, List.replicate 32 0, [], 10⟩

def boardAccount0 : AccountInfo := ⟨boardKey, false, List.replicate 32 0, [], 0⟩

def holdingAccount (amount : Nat) : AccountInfo :=
  ⟨List.replicate 32 3, false, holdingProgKey, mkHoldingData mintKey senderKey amount, 0⟩

def holdingProgAccount : AccountInfo := ⟨holdingProgKey, false, List.replicate 32 0, [], 0⟩

def systemAccount : AccountInfo := ⟨List.replicate 32 5, false, List.replicate 32 0, [], 0⟩

def rentAccount : AccountInfo := ⟨List.replicate 32 6, false, List.replicate 32 0, [], 0⟩

def sixAccounts (amount : Nat) : List AccountInfo :=
  [senderAccount, boardAccount0, holdingAccount amount, holdingProgAccount,
    systemAccount, rentAccount]

/-! Helper lemmas shared by the claim theorems. -/

lemma pushBytes_ok {cap : Nat} {w b : List Nat} (h : w.length + b.length ≤ cap) :
    pushBytes cap w b = .ok (w ++ b) := by
  simp [pushBytes, h]

lemma pushBytes_err {cap : Nat} {w b : List Nat} (h : cap < w.length + b.length) :
    pushBytes cap w b = .error .BorshIoError := by
  simp [pushBytes]
  omega

lemma serializeBoardRecord_length (r : MessageBoardInfo) :
    (serializeBoardRecord r).length = 1 + r.owner.length + r.token.length + 4 + r.url.length := by
  cases h : r.is_initialized <;> simp [serializeBoardRecord, h, natToLe4] <;> omega

lemma serializeInto_eq (r : MessageBoardInfo) (buf : List Nat) :
    serializeInto r buf =
      if (serializeBoardRecord r).length ≤ buf.length then
        .ok (serializeBoardRecord r ++ buf.drop (serializeBoardRecord r).length)
      else .error .BorshIoError := by
  obtain ⟨flag, owner, token, url⟩ := r
  obtain ⟨f, hfe, hf⟩ : ∃ f : List Nat, (if flag then ([1] : List Nat) else [0]) = f ∧ f.length = 1 :=
    ⟨_, rfl, by cases flag <;> rfl⟩
  rw [serializeInto]
  simp only [serializeBoardRecord]
  rw [hfe]
  by_cases h1 : 1 ≤ buf.length
  · rw [pushBytes_ok (show ([] : List Nat).length + f.length ≤ buf.length by
      simp only [hf, List.length_append, List.length_nil, List.length_cons]; omega)]
    dsimp only
    by_cases h2 : 1 + owner.length ≤ buf.length
    · rw [pushBytes_ok (show (([] : List Nat) ++ f).length + owner.length ≤ buf.length by
        simp only [hf, List.length_append, List.length_nil, List.length_cons]; omega)]
      dsimp only
      by_cases h3 : 1 + owner.length + token.length ≤ buf.length
      · rw [pushBytes_ok (show ((([] : List Nat) ++ f) ++ owner).length + token.length ≤ buf.length by
          simp only [hf, List.length_append, List.length_nil, List.length_cons]; omega)]
        dsimp only
        by_cases h4 : 1 + owner.length + token.length + 4 ≤ buf.length
        · rw [pushBytes_ok (show (((([] : List Nat) ++ f) ++ owner) ++ token).length + (natToLe4 url.length).length ≤ buf.length by
            simp only [hf, natToLe4, List.length_append, List.length_nil, List.length_cons]; omega)]
          dsimp only
          by_cases h5 : 1 + owner.length + token.length + 4 + url.length ≤ buf.length
          · rw [pushBytes_ok (show ((((([] : List Nat) ++ f) ++ owner) ++ token) ++ natToLe4 url.length).length + url.length ≤ buf.length by
              simp only [hf, natToLe4, List.length_append, List.length_nil, List.length_cons]; omega)]
            dsimp only
            rw [if_pos (show (f ++ owner ++ token ++ natToLe4 url.length ++ url).length ≤ buf.length by
              simp only [hf, natToLe4, List.length_append, List.length_nil, List.length_cons]; omega)]
            have hdrop : ((((([] : List Nat) ++ f) ++ owner) ++ token) ++ natToLe4 url.length ++ url).length =
                (f ++ owner ++ token ++ natToLe4 url.length ++ url).length := by
              simp
            rw [hdrop]
            simp [List.append_assoc]
          · rw [pushBytes_err (show buf.length < ((((([] : List Nat) ++ f) ++ owner) ++ token) ++ natToLe4 url.length).length + url.length by
              simp only [hf, natToLe4, List.length_append, List.length_nil, List.length_cons]; omega)]
            dsimp only
            rw [if_neg (show ¬ (f ++ owner ++ token ++ natToLe4 url.length ++ url).length ≤ buf.length by
              simp only [hf, natToLe4, List.length_append, List.length_nil, List.length_cons]; omega)]
        · rw [pushBytes_err (show buf.length < (((([] : List Nat) ++ f) ++ owner) ++ token).length + (natToLe4 url.length).length by
            simp only [hf, natToLe4, List.length_append, List.length_nil, List.length_cons]; omega)]
          dsimp only
          rw [if_neg (show ¬ (f ++ owner ++ token ++ natToLe4 url.length ++ url).length ≤ buf.length by
            simp only [hf, natToLe4, List.length_append, List.length_nil, List.length_cons]; omega)]
      · rw [pushBytes_err (show buf.length < ((([] : List Nat) ++ f) ++ owner).length + token.length by
          simp only [hf, List.length_append, List.length_nil, List.length_cons]; omega)]
        dsimp only
        rw [if_neg (show ¬ (f ++ owner ++ token ++ natToLe4 url.length ++ url).length ≤ buf.length by
          simp only [hf, natToLe4, List.length_append, List.length_nil, List.length_cons]; omega)]
    · rw [pushBytes_err (show buf.length < (([] : List Nat) ++ f).length + owner.length by
        simp only [hf, List.length_append, List.length_nil, List.length_cons]; omega)]
      dsimp only
      rw [if_neg (show ¬ (f ++ owner ++ token ++ natToLe4 url.length ++ url).length ≤ buf.length by
        simp only [hf, natToLe4, List.length_append, List.length_nil, List.length_cons]; omega)]
  · rw [pushBytes_err (show buf.length < ([] : List Nat).length + f.length by
      simp only [hf, List.length_append, List.length_nil, List.length_cons]; omega)]
    dsimp only
    rw [if_neg (show ¬ (f ++ owner ++ token ++ natToLe4 url.length ++ url).length ≤ buf.length by
      simp only [hf, natToLe4, List.length_append, List.length_nil, List.length_cons]; omega)]

lemma leBytesToNat_natToLe4 {n : Nat} (h : n < 4294967296) :
    leBytesToNat (natToLe4 n) = n := by
  simp [leBytesToNat, natToLe4]
  omega

lemma readBytes_exact (l rest : List Nat) : readBytes l.length (l ++ rest) = some (l, rest) := by
  simp [readBytes, List.take_left, List.drop_left]

lemma deserializeBoardRecord_append (flag : Bool) (owner token url extra : List Nat)
    (ho : owner.length = 32) (ht : token.length = 32)
    (hu : utf8Valid url = true) (hlen : url.length < 4294967296) :
    deserializeBoardRecord (serializeBoardRecord ⟨flag, owner, token, url⟩ ++ extra) =
      some (⟨flag, owner, token, url⟩, extra) := by
  have hf1 : (if flag then ([1] : List Nat) else [0]).length = 1 := by cases flag <;> rfl
  have hb : boolFromBytes (if flag then ([1] : List Nat) else [0]) = some flag := by
    cases flag <;> rfl
  rw [serializeBoardRecord]
  dsimp only
  simp only [List.append_assoc]
  rw [deserializeBoardRecord]
  have e1 : readBytes 1 ((if flag then ([1] : List Nat) else [0]) ++
      (owner ++ (token ++ (natToLe4 url.length ++ (url ++ extra))))) =
      some ((if flag then ([1] : List Nat) else [0]),
        owner ++ (token ++ (natToLe4 url.length ++ (url ++ extra)))) := by
    have h := readBytes_exact (if flag then ([1] : List Nat) else [0])
      (owner ++ (token ++ (natToLe4 url.length ++ (url ++ extra))))
    rwa [hf1] at h
  rw [e1]
  dsimp only
  rw [hb]
  dsimp only
  have e2 : readBytes 32 (owner ++ (token ++ (natToLe4 url.length ++ (url ++ extra)))) =
      some (owner, token ++ (natToLe4 url.length ++ (url ++ extra))) := by
    have h := readBytes_exact owner (token ++ (natToLe4 url.length ++ (url ++ extra)))
    rwa [ho] at h
  rw [e2]
  dsimp only
  have e3 : readBytes 32 (token ++ (natToLe4 url.length ++ (url ++ extra))) =
      some (token, natToLe4 url.length ++ (url ++ extra)) := by
    have h := readBytes_exact token (natToLe4 url.length ++ (url ++ extra))
    rwa [ht] at h
  rw [e3]
  dsimp only
  have e4 : readBytes 4 (natToLe4 url.length ++ (url ++ extra)) =
      some (natToLe4 url.length, url ++ extra) := by
    have h := readBytes_exact (natToLe4 url.length) (url ++ extra)
    rwa [show (natToLe4 url.length).length = 4 from by simp [natToLe4]] at h
  rw [e4]
  dsimp only
  rw [leBytesToNat_natToLe4 hlen]
  have e5 : readBytes url.length (url ++ extra) = some (url, extra) :=
    readBytes_exact url extra
  rw [e5]
  dsimp only
  rw [hu]
  rfl

lemma unpack_eq_ok (input : List Nat) (h0 : input.head? = some 0)
    (hlen : 33 ≤ input.length) (hu : utf8Valid (input.drop 33) = true) :
    MessageBoardInstruction.unpack input =
      .ok (.createBoard ((input.drop 1).take 32) (input.drop 33)) := by
  match input with
  | [] => simp at h0
  | v :: rest =>
    simp only [List.head?_cons, Option.some.injEq] at h0
    subst h0
    rw [MessageBoardInstruction.unpack]
    simp only [List.length_cons] at hlen
    rw [if_pos rfl, if_neg (show ¬ rest.length < 32 by omega),
      if_pos (show utf8Valid (rest.drop 32) = true from hu)]
    rfl

lemma create_board_run (env : HostEnv) (pid : Pubkey) (s b t tp sp r : AccountInfo)
    (token : Pubkey) (url : List Nat) (h : TokenHolding)
    (hs : s.is_signer = true) (hto : t.owner = tp.key)
    (hu : unpackTokenAccount t.data = .ok h)
    (h1 : h.owner = s.key) (h2 : h.mint = token) (h3 : h.amount ≠ 0) :
    create_board env pid [s, b, t, tp, sp, r] token url =
      (match env.createAccount ⟨s.key, b.key, env.minimumBalance messageBoardInfoSize,
          messageBoardInfoSize, pid⟩ with
      | .error e => .failure [⟨s.key, b.key, env.minimumBalance messageBoardInfoSize,
          messageBoardInfoSize, pid⟩] e
      | .ok _ =>
        match serializeInto ⟨true, s.key, token, url⟩
            (List.replicate messageBoardInfoSize 0) with
        | .error e => .failure [⟨s.key, b.key, env.minimumBalance messageBoardInfoSize,
            messageBoardInfoSize, pid⟩] e
        | .ok d => .success ⟨s.key, b.key, env.minimumBalance messageBoardInfoSize,
            messageBoardInfoSize, pid⟩ d) := by
  simp [create_board, next_account_info, hs, hto, hu, h1, h2, h3]

lemma create_board_eq_authorize (env : HostEnv) (pid : Pubkey)
    (s b t tp sp r : AccountInfo) (token : Pubkey) (url : List Nat) :
    create_board env pid [s, b, t, tp, sp, r] token url =
      (match authorizeSpec s t tp token with
      | .error e => .failure [] e
      | .ok _ =>
        match env.createAccount ⟨s.key, b.key, env.minimumBalance messageBoardInfoSize,
            messageBoardInfoSize, pid⟩ with
        | .error e => .failure [⟨s.key, b.key, env.minimumBalance messageBoardInfoSize,
            messageBoardInfoSize, pid⟩] e
        | .ok _ =>
          match serializeInto ⟨true, s.key, token, url⟩
              (List.replicate messageBoardInfoSize 0) with
          | .error e => .failure [⟨s.key, b.key, env.minimumBalance messageBoardInfoSize,
              messageBoardInfoSize, pid⟩] e
          | .ok d => .success ⟨s.key, b.key, env.minimumBalance messageBoardInfoSize,
              messageBoardInfoSize, pid⟩ d) := by
  rw [create_board, authorizeSpec]
  dsimp only [next_account_info]
  cases hs : s.is_signer
  · rfl
  · simp only [Bool.not_true, Bool.false_eq_true, if_false]
    by_cases hto : t.owner = tp.key
    · simp only [if_neg (show ¬t.owner ≠ tp.key from fun hn => hn hto)]
      cases hu : unpackTokenAccount t.data with
      | error e => rfl
      | ok holding =>
        by_cases hg : holding.owner ≠ s.key ∨ holding.mint ≠ token ∨ holding.amount = 0
        · simp only [if_pos hg]
        · simp only [if_neg hg]
    · simp only [if_pos (show t.owner ≠ tp.key from hto)]

/-! Claim theorems. -/

/-- Claim C2: for every input whose first byte is 0, with at least 32 bytes
after the tag and a valid-UTF-8 tail past those 32 bytes, `unpack` returns
`CreateBoard` with token = bytes 1..33 and url = bytes 33..end (the url
consumes the whole remainder). -/
theorem claim_C2_unpack_tag0 (input : List Nat)
    (h0 : input.head? = some 0) (hlen : 33 ≤ input.length)
    (hu : utf8Valid (input.drop 33) = true) :
    MessageBoardInstruction.unpack input =
      .ok (.createBoard ((input.drop 1).take 32) (input.drop 33)) :=
  unpack_eq_ok input h0 hlen hu

/-- Witness for C2 at a concrete 35-byte payload. -/
theorem claim_C2_witness :
    MessageBoardInstruction.unpack (0 :: (List.replicate 32 7 ++ [104, 105])) =
      .ok (.createBoard (((0 :: (List.replicate 32 7 ++ [104, 105])).drop 1).take 32)
        ((0 :: (List.replicate 32 7 ++ [104, 105])).drop 33)) :=
  claim_C2_unpack_tag0 _ (by decide) (by decide) (by decide)

/-- Counterexample to C3 as stated: the payload `[0]` (tag 0, no bytes
after the tag) makes `unpack` abort on an out-of-bounds slice instead of
returning `MalformedInstruction`. -/
theorem claim_C3_counterexample :
    MessageBoardInstruction.unpack [0] = .panicked ∧
      MessageBoardInstruction.unpack [0] ≠ .err .InvalidInstructionData := by
  decide

/-- Claim C3 as amended: `unpack` returns the `MalformedInstruction` error
exactly on empty input, a tag other than 0, or a tag-0 payload with at
least 32 bytes after the tag whose tail is not valid UTF-8; a tag-0
payload with fewer than 32 bytes after the tag instead aborts
(out-of-bounds slice), exactly when the total length is below 33. -/
theorem claim_C3_unpack_errors (input : List Nat) :
    (MessageBoardInstruction.unpack input = .err .InvalidInstructionData ↔
      (input = [] ∨ (input ≠ [] ∧ input.head? ≠ some 0) ∨
        (input.head? = some 0 ∧ 33 ≤ input.length ∧
          utf8Valid (input.drop 33) = false))) ∧
    (MessageBoardInstruction.unpack input = .panicked ↔
      (input.head? = some 0 ∧ input.length < 33)) := by
  cases input with
  | nil => simp [MessageBoardInstruction.unpack]
  | cons v rest =>
    by_cases hv : v = 0
    · subst hv
      by_cases h32 : rest.length < 32
      · rw [MessageBoardInstruction.unpack]
        simp only [if_pos rfl, if_pos h32]
        simp [h32]
        omega
      · by_cases hu : utf8Valid (rest.drop 32)
        · rw [MessageBoardInstruction.unpack]
          simp only [if_pos rfl, if_neg h32]
          rw [if_pos hu]
          simp [h32, hu]
          omega
        · rw [MessageBoardInstruction.unpack]
          simp only [if_pos rfl, if_neg h32]
          rw [if_neg hu]
          have hu' : utf8Valid (rest.drop 32) = false := by simpa using hu
          simp [h32, hu']
          omega
    · rw [MessageBoardInstruction.unpack]
      rw [if_neg hv]
      simp [hv]

/-- Claim C4: the authorization checks run in the spec's fixed order —
signer flag, holding account's owning program, holding decode,
owner/mint/amount — and `create_board` fails with the error of the first
violated check (the ordered checks are written out in `authorizeSpec`);
in particular a non-signer sender always yields `MissingRequiredSignature`. -/
theorem claim_C4_check_order (env : HostEnv) (pid : Pubkey)
    (s b t tp sp r : AccountInfo) (token : Pubkey) (url : List Nat) :
    (∀ e, authorizeSpec s t tp token = .error e →
      create_board env pid [s, b, t, tp, sp, r] token url = .failure [] e) ∧
    (s.is_signer = false →
      create_board env pid [s, b, t, tp, sp, r] token url =
        .failure [] .MissingRequiredSignature) := by
  constructor
  · intro e he
    rw [create_board_eq_authorize, he]
  · intro hs
    rw [create_board_eq_authorize, authorizeSpec]
    simp [hs]

/-- Witness for C4: a concrete non-signer sender fails with
`MissingRequiredSignature` even though every other account is valid. -/
theorem claim_C4_witness :
    create_board okEnv programKey
        [nonSignerSender, boardAccount0, holdingAccount 5, holdingProgAccount,
          systemAccount, rentAccount] mintKey [104, 105] =
      .failure [] .MissingRequiredSignature :=
  (claim_C4_check_order okEnv programKey nonSignerSender boardAccount0
    (holdingAccount 5) holdingProgAccount systemAccount rentAccount mintKey
    [104, 105]).2 rfl

/-- Claim C5: once the sender is a signer, the holding account is owned by
the declared holding program and its bytes decode, the invocation fails
with `UnauthorizedOrEmptyHolding` (`InvalidAccountData`) exactly when the
holding's owner is not the sender, its mint is not the instruction token,
or its amount is zero. -/
theorem claim_C5_holding_checks (env : HostEnv) (pid : Pubkey)
    (s b t tp sp r : AccountInfo) (token : Pubkey) (url : List Nat)
    (h : TokenHolding) (hs : s.is_signer = true) (hto : t.owner = tp.key)
    (hu : unpackTokenAccount t.data = .ok h) :
    create_board env pid [s, b, t, tp, sp, r] token url =
        .failure [] .InvalidAccountData ↔
      (h.owner ≠ s.key ∨ h.mint ≠ token ∨ h.amount = 0) := by
  rw [create_board_eq_authorize, authorizeSpec]
  simp only [hs, Bool.not_true, Bool.false_eq_true, if_false,
    if_neg (show ¬t.owner ≠ tp.key from fun hn => hn hto), hu]
  by_cases hg : h.owner ≠ s.key ∨ h.mint ≠ token ∨ h.amount = 0
  · simp only [if_pos hg]
    simp [hg]
  · simp only [if_neg hg]
    constructor
    · intro hres
      cases hc : env.createAccount ⟨s.key, b.key, env.minimumBalance messageBoardInfoSize,
          messageBoardInfoSize, pid⟩ with
      | error e => rw [hc] at hres; simp at hres
      | ok u =>
        rw [hc] at hres
        cases hser : serializeInto ⟨true, s.key, token, url⟩
            (List.replicate messageBoardInfoSize 0) with
        | error e => rw [hser] at hres; simp at hres
        | ok d => rw [hser] at hres; simp at hres
    · intro hg'
      exact absurd hg' hg

/-- Witness for C5: with a concrete zero-amount holding and otherwise valid
accounts, the failure condition holds. -/
theorem claim_C5_witness :
    (create_board okEnv programKey
        [senderAccount, boardAccount0, holdingAccount 0, holdingProgAccount,
          systemAccount, rentAccount] mintKey [104, 105] =
        .failure [] .InvalidAccountData ↔
      ((⟨mintKey, senderKey, 0⟩ : TokenHolding).owner ≠ senderAccount.key ∨
        (⟨mintKey, senderKey, 0⟩ : TokenHolding).mint ≠ mintKey ∨
        (⟨mintKey, senderKey, 0⟩ : TokenHolding).amount = 0)) :=
  claim_C5_holding_checks okEnv programKey senderAccount boardAccount0
    (holdingAccount 0) holdingProgAccount systemAccount rentAccount mintKey
    [104, 105] ⟨mintKey, senderKey, 0⟩ rfl rfl (by rfl)

/-- Claim C6: once authorization passes, `create_board` performs exactly one
account-creation invocation, with payer = sender, new account = board
storage, lamports = `minimum_balance` of the space, space = the fixed
compile-time record size (independent of the url), and owning program =
this program's id; and an error from the primitive is propagated verbatim
and aborts the invocation. -/
theorem claim_C6_provisioning (env : HostEnv) (pid : Pubkey)
    (s b t tp sp r : AccountInfo) (token : Pubkey) (url : List Nat)
    (h : TokenHolding) (hs : s.is_signer = true) (hto : t.owner = tp.key)
    (hu : unpackTokenAccount t.data = .ok h) (h1 : h.owner = s.key)
    (h2 : h.mint = token) (h3 : h.amount ≠ 0) :
    cpisOf (create_board env pid [s, b, t, tp, sp, r] token url) =
      [⟨s.key, b.key, env.minimumBalance messageBoardInfoSize,
        messageBoardInfoSize, pid⟩] ∧
    (∀ e, env.createAccount ⟨s.key, b.key, env.minimumBalance messageBoardInfoSize,
        messageBoardInfoSize, pid⟩ = .error e →
      create_board env pid [s, b, t, tp, sp, r] token url =
        .failure [⟨s.key, b.key, env.minimumBalance messageBoardInfoSize,
          messageBoardInfoSize, pid⟩] e) := by
  rw [create_board_run env pid s b t tp sp r token url h hs hto hu h1 h2 h3]
  constructor
  · cases hc : env.createAccount ⟨s.key, b.key, env.minimumBalance messageBoardInfoSize,
        messageBoardInfoSize, pid⟩ with
    | error e => rfl
    | ok u =>
      cases hser : serializeInto ⟨true, s.key, token, url⟩
          (List.replicate messageBoardInfoSize 0) with
      | error e => rfl
      | ok d => rfl
  · intro e he
    rw [he]

/-- Witness for C6: an environment whose creation primitive always fails
with a custom error; the invocation records the exact argument tuple and
propagates that error. -/
theorem claim_C6_witness :
    cpisOf (create_board errEnv programKey (sixAccounts 5) mintKey [104, 105]) =
      [⟨senderKey, boardKey, 5, 96, programKey⟩] ∧
    create_board errEnv programKey (sixAccounts 5) mintKey [104, 105] =
      .failure [⟨senderKey, boardKey, 5, 96, programKey⟩] (.Custom 7) := by
  have h := claim_C6_provisioning errEnv programKey senderAccount boardAccount0
    (holdingAccount 5) holdingProgAccount systemAccount rentAccount mintKey
    [104, 105] ⟨mintKey, senderKey, 5⟩ rfl rfl (by rfl) rfl rfl (by decide)
  exact ⟨h.1, h.2 (.Custom 7) rfl⟩

/-- Claim C8: the write stage fails with `SerializationFailure`
(`BorshIoError`) exactly when the storage buffer is smaller than the
serialized record, and otherwise writes the record in place, keeping the
buffer bytes past it. -/
theorem claim_C8_write_stage (r : MessageBoardInfo) (buf : List Nat) :
    serializeInto r buf =
      if (serializeBoardRecord r).length ≤ buf.length then
        .ok (serializeBoardRecord r ++ buf.drop (serializeBoardRecord r).length)
      else .error .BorshIoError :=
  serializeInto_eq r buf

/-- Claim C9: the core never inspects the prior contents of the board
storage account — replacing the board account's data buffer with any other
bytes leaves the outcome of `create_board` unchanged. -/
theorem claim_C9_board_data_ignored (env : HostEnv) (pid : Pubkey)
    (s b t tp sp r : AccountInfo) (d' : List Nat) (token : Pubkey)
    (url : List Nat) :
    create_board env pid [s, b, t, tp, sp, r] token url =
      create_board env pid [s, { b with data := d' }, t, tp, sp, r] token url := by
  rfl

/-- Claim C10: `create_board` reads at most the first six accounts, and
with fewer than six it fails with `NotEnoughAccountKeys` at the fetch,
before any check or mutation (no invocation is recorded in the outcome). -/
theorem claim_C10_six_accounts (env : HostEnv) (pid : Pubkey)
    (accounts : List AccountInfo) (token : Pubkey) (url : List Nat) :
    create_board env pid accounts token url =
      create_board env pid (accounts.take 6) token url ∧
    (accounts.length < 6 →
      create_board env pid accounts token url =
        .failure [] .NotEnoughAccountKeys) := by
  rcases accounts with _ | ⟨a1, _ | ⟨a2, _ | ⟨a3, _ | ⟨a4, _ | ⟨a5, _ | ⟨a6, rest⟩⟩⟩⟩⟩⟩
  · exact ⟨rfl, fun _ => rfl⟩
  · exact ⟨rfl, fun _ => rfl⟩
  · exact ⟨rfl, fun _ => rfl⟩
  · exact ⟨rfl, fun _ => rfl⟩
  · exact ⟨rfl, fun _ => rfl⟩
  · exact ⟨rfl, fun _ => rfl⟩
  · refine ⟨rfl, fun hlen => ?_⟩
    simp at hlen
    omega

/-- Witness for C10 at the empty account list. -/
theorem claim_C10_witness :
    create_board okEnv programKey [] mintKey [104, 105] =
      create_board okEnv programKey (([] : List AccountInfo).take 6) mintKey [104, 105] ∧
    create_board okEnv programKey [] mintKey [104, 105] =
      .failure [] .NotEnoughAccountKeys :=
  ⟨(claim_C10_six_accounts okEnv programKey [] mintKey [104, 105]).1,
    (claim_C10_six_accounts okEnv programKey [] mintKey [104, 105]).2 (by decide)⟩

/-- Claim C7: serializing a `BoardRecord` whose serialized form fits the
allocated storage size and deserializing the produced bytes yields the
identical record (with nothing left over). -/
theorem claim_C7_roundtrip (r : MessageBoardInfo)
    (ho : r.owner.length = 32) (ht : r.token.length = 32)
    (hu : utf8Valid r.url = true)
    (hfit : (serializeBoardRecord r).length ≤ messageBoardInfoSize) :
    deserializeBoardRecord (serializeBoardRecord r) = some (r, []) := by
  obtain ⟨flag, owner, token, url⟩ := r
  have hlen : url.length < 4294967296 := by
    rw [serializeBoardRecord_length] at hfit
    simp only [messageBoardInfoSize] at hfit
    omega
  have h := deserializeBoardRecord_append flag owner token url [] ho ht hu hlen
  simpa using h

/-- Witness for C7 at a concrete record. -/
theorem claim_C7_witness :
    deserializeBoardRecord (serializeBoardRecord ⟨true, senderKey, mintKey, [104, 105]⟩) =
      some (⟨true, senderKey, mintKey, [104, 105]⟩, []) :=
  claim_C7_roundtrip ⟨true, senderKey, mintKey, [104, 105]⟩ (by decide) (by decide)
    (by decide) (by decide)

/-- Claim C1 as amended: a well-formed payload with valid accounts (sender
signs, holding owned by the declared program, decoded holding matches
sender/token with positive amount), a succeeding account-creation
primitive, and a url whose serialized record fits the fixed 96-byte
allocation (url at most 27 bytes) makes the invocation succeed, and the
resulting storage decodes to `BoardRecord` with `is_initialized = true`,
`owner` = sender, and the instruction's token and url. -/
theorem claim_C1_success (env : HostEnv) (pid : Pubkey)
    (s b t tp sp r : AccountInfo) (token : Pubkey) (url : List Nat)
    (h : TokenHolding) (htok : token.length = 32) (hkey : s.key.length = 32)
    (hutf : utf8Valid url = true) (hs : s.is_signer = true)
    (hto : t.owner = tp.key) (hu : unpackTokenAccount t.data = .ok h)
    (h1 : h.owner = s.key) (h2 : h.mint = token) (h3 : 0 < h.amount)
    (hcpi : env.createAccount ⟨s.key, b.key, env.minimumBalance messageBoardInfoSize,
      messageBoardInfoSize, pid⟩ = .ok ())
    (hfit : url.length ≤ 27) :
    process_instruction env pid [s, b, t, tp, sp, r] (0 :: (token ++ url)) =
      .success ⟨s.key, b.key, env.minimumBalance messageBoardInfoSize,
          messageBoardInfoSize, pid⟩
        (serializeBoardRecord ⟨true, s.key, token, url⟩ ++
          List.replicate (27 - url.length) 0) ∧
    (deserializeBoardRecord (serializeBoardRecord ⟨true, s.key, token, url⟩ ++
        List.replicate (27 - url.length) 0)).map Prod.fst =
      some ⟨true, s.key, token, url⟩ := by
  have hdrop : (token ++ url).drop 32 = url := by
    have hh := List.drop_left token url
    rwa [htok] at hh
  have htake : (token ++ url).take 32 = token := by
    have hh := List.take_left token url
    rwa [htok] at hh
  have hunp : MessageBoardInstruction.unpack (0 :: (token ++ url)) =
      .ok (.createBoard token url) := by
    rw [MessageBoardInstruction.unpack]
    rw [if_pos rfl,
      if_neg (show ¬(token ++ url).length < 32 by
        simp only [List.length_append, htok]; omega)]
    rw [hdrop, if_pos hutf, htake]
  constructor
  · rw [process_instruction, hunp]
    dsimp only
    rw [create_board_run env pid s b t tp sp r token url h hs hto hu h1 h2 (by omega)]
    rw [hcpi]
    dsimp only
    rw [serializeInto_eq]
    rw [if_pos (show (serializeBoardRecord ⟨true, s.key, token, url⟩).length ≤
        (List.replicate messageBoardInfoSize (0 : Nat)).length by
      rw [serializeBoardRecord_length]
      simp only [List.length_replicate, messageBoardInfoSize, hkey, htok]
      omega)]
    have hX : (List.replicate messageBoardInfoSize (0 : Nat)).drop
        (serializeBoardRecord ⟨true, s.key, token, url⟩).length =
        List.replicate (27 - url.length) (0 : Nat) := by
      rw [serializeBoardRecord_length, List.drop_replicate]
      congr 1
      simp only [messageBoardInfoSize, hkey, htok]
      omega
    rw [hX]
  · rw [deserializeBoardRecord_append true s.key token url _ hkey htok hutf (by omega)]
    rfl

/-- Witness for C1 (amended) at concrete accounts and a 2-byte url. -/
theorem claim_C1_witness :
    process_instruction okEnv programKey (sixAccounts 5)
        (0 :: (mintKey ++ [104, 105])) =
      .success ⟨senderKey, boardKey, 5, 96, programKey⟩
        (serializeBoardRecord ⟨true, senderKey, mintKey, [104, 105]⟩ ++
          List.replicate 25 0) ∧
    (deserializeBoardRecord (serializeBoardRecord ⟨true, senderKey, mintKey, [104, 105]⟩ ++
        List.replicate 25 0)).map Prod.fst =
      some ⟨true, senderKey, mintKey, [104, 105]⟩ :=
  claim_C1_success okEnv programKey senderAccount boardAccount0 (holdingAccount 5)
    holdingProgAccount systemAccount rentAccount mintKey [104, 105]
    ⟨mintKey, senderKey, 5⟩ (by decide) (by decide) (by decide) rfl rfl (by rfl)
    rfl rfl (by decide) rfl (by decide)

/-- Counterexample to C1 as stated: a 28-byte url with every account-side
precondition satisfied and a succeeding creation primitive still fails —
the serialized record (97 bytes) exceeds the fixed 96-byte allocation, so
the write stage aborts with `BorshIoError` instead of succeeding. -/
theorem claim_C1_counterexample :
    process_instruction okEnv programKey (sixAccounts 5)
        (0 :: (mintKey ++ List.replicate 28 97)) =
      .failure [⟨senderKey, boardKey, 5, 96, programKey⟩] .BorshIoError ∧
    succeeded (process_instruction okEnv programKey (sixAccounts 5)
        (0 :: (mintKey ++ List.replicate 28 97))) = false := by
  exact ⟨by rfl, by rfl⟩
